import Mathlib

/-!
Verification of the BrickSense saliency pipeline (talhabtahir/bricksensev2).

The repository is three near-duplicate Streamlit scripts
(`bricksense.py`, `bricksense-v1.py`, `bricksens-x.py`) that classify a
brick-wall photograph with a pretrained CNN and visualise the activation of
one interior layer as a heatmap / contour overlay.

This file shallowly embeds the numeric and geometric core of those scripts:

* IEEE floating point results are modelled as `Flt := Option ℚ`, where
  `none` stands for a non-value (NaN or an infinity) and `some q` for an
  exact finite value; the numpy operations used by the scripts
  (`np.maximum`, `np.mean`, `np.max`, `/`) are lifted accordingly, with NaN
  propagation.  Rounding error is not modelled: all the claims checked here
  are either exact-arithmetic facts or concern integer truncation.
* Images are width × height grids of 8-bit RGB pixels given by a pixel
  function; PIL operations (`rotate`, `ImageOps.fit`, `ImageOps.pad`) are
  embedded with their documented geometry, with LANCZOS resampling
  modelled as nearest-neighbour sampling (the claims checked do not depend
  on the resampling kernel, only on the geometry of the derived forms).
* The `import_and_predict` request flow is embedded as an `Except`-valued
  pipeline whose boundary converts every error into `none`, mirroring the
  `try/except` that returns `None` in the scripts.
-/

namespace BrickSense

/-- A floating point result: `some q` is a finite value, `none` is a
non-value (NaN or ±inf). -/
abbrev Flt := Option ℚ

/-- `np.maximum` on two scalars; NaN propagates. -/
def fmax (a b : Flt) : Flt :=
  match a, b with
  | some x, some y => some (max x y)
  | _, _ => none

/-- Floating point addition; NaN propagates. -/
def fadd (a b : Flt) : Flt :=
  match a, b with
  | some x, some y => some (x + y)
  | _, _ => none

/-- Floating point division.  Division by zero yields a non-value
(`0/0` is NaN, `x/0` is ±inf); NaN propagates. -/
def fdiv (a b : Flt) : Flt :=
  match a, b with
  | some x, some y => if y = 0 then none else some (x / y)
  | _, _ => none

/-- Sum of a list of floats (the reduction inside `np.mean`). -/
def fsum (l : List Flt) : Flt :=
  l.foldl fadd (some 0)

/-- `np.mean` over one channel vector: sum divided by length; the mean of
an empty slice is NaN. -/
def fmean (l : List Flt) : Flt :=
  match l with
  | [] => none
  | _ => fdiv (fsum l) (some l.length)

/-- `np.mean(layer_output, axis=-1)`: average the channel axis of an
H × W × C activation tensor, giving the 2D `heat_map`
(bricksense.py line 63, bricksense-v1.py line 64, bricksens-x.py line 162). -/
def chanMean (a : List (List (List Flt))) : List (List Flt) :=
  a.map (List.map fmean)

/-- `heat_map = np.maximum(heat_map, 0)`: clamp negatives to zero
(bricksense.py line 66, bricksense-v1.py line 67, bricksens-x.py line 165). -/
def relu (m : List (List Flt)) : List (List Flt) :=
  m.map (List.map (fun x => fmax x (some 0)))

/-- `np.max` over a 2D array: the running maximum of all entries; NaN
propagates.  (`np.max` of an empty array raises in numpy; the maps this is
applied to in the scripts are nonempty, and the pipeline embedding below
turns the empty case into an explicit error.) -/
def npMax (m : List (List Flt)) : Flt :=
  match m.flatten with
  | [] => none
  | x :: xs => xs.foldl fmax x

/-- `heat_map /= np.max(heat_map)`: elementwise division of the map by its
maximum (bricksense.py line 67, bricksense-v1.py line 68,
bricksens-x.py line 166).  There is no guard: when the maximum is zero the
entries become `0/0`, i.e. NaN. -/
def normalizeHeat (m : List (List Flt)) : List (List Flt) :=
  m.map (List.map (fun x => fdiv x (npMax m)))

/-- Lines 66–67 of bricksense.py (and the identical pairs in the other two
scripts): rectify, then divide by the maximum. -/
def heatNorm (m : List (List Flt)) : List (List Flt) :=
  normalizeHeat (relu m)

/-- Lift an exact rational matrix to a matrix of defined floats. -/
def liftM (m : List (List ℚ)) : List (List Flt) :=
  m.map (List.map some)

/-! ## Geometry remapper (`scale_contours` and the stroke thickness) -/

/-- `scale_x = original_width / size[0]` with `size = (224, 224)`
(bricksense-v1.py line 90; bricksens-x.py line 188, where
`image_resized.size[0]` is also 224). -/
def scale_x (original_width : ℕ) : ℚ :=
  original_width / 224

/-- `scale_y = original_height / size[1]` (bricksense-v1.py line 91,
bricksens-x.py line 189). -/
def scale_y (original_height : ℕ) : ℚ :=
  original_height / 224

/-- One remapped contour point:
`[int(point[0][0] * scale_x), int(point[0][1] * scale_y)]`.  Contour
coordinates from `cv2.findContours` are nonnegative integers, so Python's
`int` truncation is the floor. -/
def scalePoint (sx sy : ℚ) (p : ℕ × ℕ) : ℤ × ℤ :=
  (⌊(p.1 : ℚ) * sx⌋, ⌊(p.2 : ℚ) * sy⌋)

/-- `scale_contours(contours, scale_x, scale_y)`
(bricksense-v1.py lines 94–99, bricksens-x.py lines 192–197): remap every
point of every contour by the per-axis scale factors, truncating to
integers. -/
def scale_contours (contours : List (List (ℕ × ℕ))) (sx sy : ℚ) :
    List (List (ℤ × ℤ)) :=
  contours.map (List.map (scalePoint sx sy))

/-- Two integer points agree to within `k` pixels on each axis. -/
def withinPix (k : ℕ) (p q : ℤ × ℤ) : Prop :=
  (p.1 - q.1).natAbs ≤ k ∧ (p.2 - q.2).natAbs ≤ k

instance (k : ℕ) (p q : ℤ × ℤ) : Decidable (withinPix k p q) :=
  inferInstanceAs (Decidable (_ ∧ _))

/-- `max_dimension = max(original_width, original_height)`
(bricksens-x.py line 134). -/
def max_dimension (original_width original_height : ℕ) : ℕ :=
  max original_width original_height

/-- `contour_thickness = max(2, int(max_dimension / 200))`
(bricksens-x.py line 137).  Python's `/` is exact division and `int`
truncates, so on naturals this is floor division. -/
def contour_thickness (original_width original_height : ℕ) : ℕ :=
  max 2 (max_dimension original_width original_height / 200)

/-- The thickness argument actually passed to `cv2.drawContours` at
bricksens-x.py line 202 is the literal `5`. -/
def drawContours_thickness : ℕ := 5

/-! ## Images and the PIL operations used by the scripts

An image is a pixel function together with its size and the EXIF
orientation tag.  `exifTag = none` models both a missing EXIF block and an
EXIF block without an Orientation entry: the source treats the two
identically (`exif.get(orientation, 1)` defaults to 1, and every branch
other than 3/6/8 leaves the image untouched). -/

/-- An 8-bit RGB pixel. -/
abbrev Pix := ℕ × ℕ × ℕ

/-- A decoded PIL image. -/
structure PImage where
  width : ℕ
  height : ℕ
  px : ℕ → ℕ → Pix
  exifTag : Option ℕ := none

/-- `image.rotate(180, expand=True)`: size unchanged, pixels reflected in
both axes. -/
def rot180 (img : PImage) : PImage :=
  { width := img.width, height := img.height,
    px := fun x y => img.px (img.width - 1 - x) (img.height - 1 - y),
    exifTag := none }

/-- `image.rotate(90, expand=True)`: a 90° counter-clockwise rotation;
the expanded canvas swaps width and height. -/
def rot90 (img : PImage) : PImage :=
  { width := img.height, height := img.width,
    px := fun x y => img.px (img.width - 1 - y) x,
    exifTag := none }

/-- `image.rotate(270, expand=True)`: a 270° counter-clockwise (90°
clockwise) rotation; the expanded canvas swaps width and height. -/
def rot270 (img : PImage) : PImage :=
  { width := img.height, height := img.width,
    px := fun x y => img.px y (img.height - 1 - x),
    exifTag := none }

/-- `correct_orientation` (bricksense.py lines 20–37, bricksense-v1.py
lines 20–37, bricksens-x.py lines 82–98): dispatch on the EXIF orientation
tag; 3 ↦ rotate 180, 6 ↦ rotate 270, 8 ↦ rotate 90, anything else (or no
tag) leaves the image exactly as received. -/
def correct_orientation (img : PImage) : PImage :=
  match img.exifTag with
  | none => img
  | some o =>
    if o = 3 then rot180 img
    else if o = 6 then rot270 img
    else if o = 8 then rot90 img
    else img

/-- Python's `round` (round-half-to-even), as used by PIL for the resized
dimensions and paste offsets. -/
def pyRound (q : ℚ) : ℤ :=
  if q - ⌊q⌋ < 1/2 then ⌊q⌋
  else if (1/2 : ℚ) < q - ⌊q⌋ then ⌊q⌋ + 1
  else if ⌊q⌋ % 2 = 0 then ⌊q⌋ else ⌊q⌋ + 1

/-- `image.resize((W, H))` with the resampling kernel modelled as
nearest-neighbour sampling (the claims below do not depend on the LANCZOS
kernel, only on which source region each derived form samples). -/
def resizeNN (img : PImage) (W H : ℕ) : PImage :=
  { width := W, height := H,
    px := fun x y => img.px (x * img.width / W) (y * img.height / H),
    exifTag := none }

/-- `ImageOps.contain(image, (W, H))`: scale to fit inside the box while
preserving aspect ratio (the first half of `ImageOps.pad`). -/
def contain (img : PImage) (W H : ℕ) : PImage :=
  if img.width * H = img.height * W then resizeNN img W H
  else if img.height * W < img.width * H then
    resizeNN img W (pyRound ((img.height : ℚ) * W / img.width)).toNat
  else
    resizeNN img (pyRound ((img.width : ℚ) * H / img.height)).toNat H

/-- `ImageOps.pad(image, (W, H), method=Image.LANCZOS)`
(bricksens-x.py line 145): letterbox — contain, then paste centred
(default centering (0.5, 0.5)) on a fresh canvas; the default `color=None`
fills the canvas with black. -/
def pad (img : PImage) (W H : ℕ) : PImage :=
  let r := contain img W H
  if r.width = W ∧ r.height = H then r
  else
    let ox := (pyRound (((W : ℚ) - r.width) * (1/2))).toNat
    let oy := (pyRound (((H : ℚ) - r.height) * (1/2))).toNat
    { width := W, height := H,
      px := fun x y =>
        if ox ≤ x ∧ x < ox + r.width ∧ oy ≤ y ∧ y < oy + r.height then
          r.px (x - ox) (y - oy)
        else (0, 0, 0),
      exifTag := none }

/-- `ImageOps.fit(image, (W, H), Image.LANCZOS)` (bricksense.py line 47,
bricksense-v1.py line 48, bricksens-x.py line 142): centre-crop to the
target aspect ratio (default bleed 0, centering (0.5, 0.5)), then resize;
the resampling over the fractional crop box is modelled as
nearest-neighbour sampling. -/
def fit (img : PImage) (W H : ℕ) : PImage :=
  let w : ℚ := img.width
  let h : ℚ := img.height
  let cropW : ℚ := if (H : ℚ) * w ≥ (W : ℚ) * h then (W : ℚ) / H * h else w
  let cropH : ℚ := if (H : ℚ) * w ≥ (W : ℚ) * h then h else w * H / W
  let left : ℚ := (w - cropW) / 2
  let top : ℚ := (h - cropH) / 2
  { width := W, height := H,
    px := fun x y =>
      img.px (⌊left + x * cropW / W⌋).toNat (⌊top + y * cropH / H⌋).toNat,
    exifTag := none }

/-- An inference tensor: the 224×224 grid of RGB values scaled to [0,1]. -/
abbrev Tensor := ℕ → ℕ → ℚ × ℚ × ℚ

/-- `np.asarray(image_resized).astype(np.float32) / 255.0`. -/
def toTensor (img : PImage) : Tensor :=
  fun x y =>
    let p := img.px x y
    ((p.1 : ℚ) / 255, (p.2.1 : ℚ) / 255, (p.2.2 : ℚ) / 255)

/-- The preprocessing of bricksens-x.py lines 140–148, statement for
statement: `image_resized` is first bound to the `ImageOps.fit`
centre-crop form, then rebound to the `ImageOps.pad` letterboxed form
(line 145 overwrites line 142), and the tensor is taken from the final
binding.  `convert("RGB")` is the identity on this RGB pixel model. -/
def preprocess_x (image_data : PImage) : Tensor :=
  let image_resized := fit image_data 224 224
  let image_resized := pad image_data 224 224
  toTensor image_resized

/-! ## The `import_and_predict` request flow

The scripts wrap their whole prediction pipeline in a single
`try: ... except Exception: return None` (bricksense.py lines 40–118,
bricksens-x.py lines 127–224).  The embedding makes each point in the
`try` block that can raise an explicit `Except.error`, and
`import_and_predict` is the boundary that converts any such error into
`none`. -/

/-- The loaded Keras model, as consumed by the scripts: one forward pass
returns the selected interior layer's activation tensor together with the
softmax prediction vector, and may raise (e.g. an input shape mismatch
inside `custom_model.predict`). -/
structure KModel where
  predict : Tensor → Except String (List (List (List Flt)) × (ℚ × ℚ × ℚ))

/-- The exceptions that can arise inside the `try` block of
`import_and_predict`. -/
inductive PipeError where
  | modelNotLoaded : PipeError
  | predictFailed : String → PipeError
  | emptyActivation : PipeError
deriving DecidableEq

/-- What the prediction flow returns on success: the prediction vector and
the normalized heatmap.  (The subsequent resize / threshold / contour /
draw steps of the scripts never raise and are covered by the geometry
definitions above.) -/
abbrev PipeResult := (ℚ × ℚ × ℚ) × List (List Flt)

/-- The body of the `try` block of `import_and_predict`: build the tensor,
run the forward pass (raising if the model failed to load, as
`Model(inputs=model.inputs, ...)` does on `None`, or if the forward pass
itself fails), channel-average the activation, and rectify-and-normalize
the heatmap (`np.max` raises on an empty map). -/
def run_pipeline (model : Option KModel) (image_data : PImage) :
    Except PipeError PipeResult :=
  match model with
  | none => .error .modelNotLoaded
  | some m =>
    let img_reshape := preprocess_x image_data
    match m.predict img_reshape with
    | .error e => .error (.predictFailed e)
    | .ok (layer_output, pred_vec) =>
      let heat_map := chanMean layer_output
      if (relu heat_map).flatten = [] then .error .emptyActivation
      else .ok (pred_vec, heatNorm heat_map)

/-- `import_and_predict`: the `except Exception` boundary — any failure
inside the pipeline is caught and turned into a `None` result
(bricksense.py lines 116–118, bricksense-v1.py lines 113–115,
bricksens-x.py lines 222–224). -/
def import_and_predict (model : Option KModel) (image_data : PImage) :
    Option PipeResult :=
  match run_pipeline model image_data with
  | .ok r => some r
  | .error _ => none

/-- Modelled from the spec: the pretrained classifier itself (the external
weights file `170kmodelv3_version_cam_1.keras`) is not under src/.  Per
§4.2 and the §3 PredictionVector data model, its head returns three class
probabilities summing to ~1; this is modelled as normalization of three
nonnegative class scores by their total. -/
def softmax3 (s : ℚ × ℚ × ℚ) : ℚ × ℚ × ℚ :=
  let t := s.1 + s.2.1 + s.2.2
  (s.1 / t, s.2.1 / t, s.2.2 / t)

/-- Modelled from the spec: a loaded classifier whose forward pass tails an
interior activation (`act`) and produces the probability head from raw
class scores (`score`). -/
def specModel (score : Tensor → ℚ × ℚ × ℚ)
    (act : Tensor → List (List (List Flt))) : KModel :=
  ⟨fun t => .ok (act t, softmax3 (score t))⟩

/-! ## Concrete instances used by counterexamples and witnesses -/

/-- A 1×1 image with no EXIF data. -/
def unitImg : PImage :=
  { width := 1, height := 1, px := fun _ _ => (0, 0, 0) }

/-- A model whose tapped layer produces an all-zero 1×1×1 activation. -/
def zeroActModel : KModel :=
  ⟨fun _ => .ok ([[[some 0]]], (1, 0, 0))⟩

/-- A 448×224 all-red image: twice as wide as tall, so the centre-crop and
letterboxed 224×224 forms differ visibly. -/
def wideRed : PImage :=
  { width := 448, height := 224, px := fun _ _ => (255, 0, 0) }

/-- A 2×1 image tagged with EXIF orientation 6. -/
def img6 : PImage :=
  { width := 2, height := 1, px := fun _ _ => (7, 7, 7), exifTag := some 6 }

/-- A 2×1 image tagged with EXIF orientation 8. -/
def img8 : PImage :=
  { width := 2, height := 1, px := fun _ _ => (7, 7, 7), exifTag := some 8 }

/-- A 2×1 image tagged with EXIF orientation 3. -/
def img3 : PImage :=
  { width := 2, height := 1, px := fun _ _ => (7, 7, 7), exifTag := some 3 }

/-- The four pixel corners of the 224×224 inference frame, as a contour. -/
def cornerContour : List (ℕ × ℕ) :=
  [(0, 0), (223, 0), (223, 223), (0, 223)]

/-- A constant score head: class scores (1, 2, 3) for every tensor. -/
def constScore : Tensor → ℚ × ℚ × ℚ := fun _ => (1, 2, 3)

/-- A constant tapped activation: a 1×1×1 zero tensor for every input. -/
def constAct : Tensor → List (List (List Flt)) := fun _ => [[[some 0]]]

/-! ## Exact-arithmetic views of the heatmap steps

`qrelu` and `qmax` are the rectify and `np.max` steps on exact rational
matrices; the lemmas below connect them to the float-level `relu` and
`npMax` on matrices where every entry is defined. -/

/-- The rectify step on an exact rational matrix. -/
def qrelu (m : List (List ℚ)) : List (List ℚ) :=
  m.map (List.map (fun x => max x 0))

/-- The maximum entry of an exact rational matrix (0 for the empty
matrix, which never arises under the nonemptiness hypotheses below). -/
def qmax (m : List (List ℚ)) : ℚ :=
  match m.flatten with
  | [] => 0
  | x :: xs => xs.foldl max x

/-! ## Helper lemmas -/

theorem foldl_max_mem (xs : List ℚ) (x : ℚ) : xs.foldl max x ∈ x :: xs := by
  induction xs generalizing x with
  | nil => simp
  | cons y ys ih =>
    rw [List.foldl_cons]
    rcases List.mem_cons.mp (ih (max x y)) with h | h
    · rw [h]
      rcases max_choice x y with hm | hm <;> rw [hm] <;> simp
    · exact List.mem_cons.mpr (Or.inr (List.mem_cons.mpr (Or.inr h)))

theorem le_foldl_max (xs : List ℚ) : ∀ x y : ℚ, y ∈ x :: xs → y ≤ xs.foldl max x := by
  induction xs with
  | nil =>
    intro x y h
    simp at h
    simp [h]
  | cons z zs ih =>
    intro x y h
    rw [List.foldl_cons]
    have hbase : max x z ≤ zs.foldl max (max x z) :=
      ih (max x z) (max x z) (List.mem_cons_self _ _)
    rcases List.mem_cons.mp h with h1 | h1
    · rw [h1]
      exact le_trans (le_max_left x z) hbase
    · rcases List.mem_cons.mp h1 with h2 | h2
      · rw [h2]
        exact le_trans (le_max_right x z) hbase
      · exact ih (max x z) y (List.mem_cons.mpr (Or.inr h2))

theorem foldl_fmax_map_some (xs : List ℚ) (x : ℚ) :
    (xs.map some).foldl fmax (some x) = some (xs.foldl max x) := by
  induction xs generalizing x with
  | nil => rfl
  | cons y ys ih => simpa [fmax] using ih (max x y)

theorem flatten_liftM (m : List (List ℚ)) :
    (liftM m).flatten = m.flatten.map some := by
  simp [liftM]

theorem relu_liftM (m : List (List ℚ)) :
    relu (liftM m) = liftM (qrelu m) := by
  simp [relu, liftM, qrelu, List.map_map, fmax, Function.comp_def]

theorem npMax_liftM (m : List (List ℚ)) (h : m.flatten ≠ []) :
    npMax (liftM m) = some (qmax m) := by
  obtain ⟨a, as, ha⟩ := List.exists_cons_of_ne_nil h
  rw [npMax, flatten_liftM, ha, List.map_cons, qmax, ha]
  exact foldl_fmax_map_some as a

theorem qmax_mem (m : List (List ℚ)) (h : m.flatten ≠ []) :
    qmax m ∈ m.flatten := by
  obtain ⟨a, as, ha⟩ := List.exists_cons_of_ne_nil h
  rw [qmax, ha]
  exact foldl_max_mem as a

theorem le_qmax (m : List (List ℚ)) (x : ℚ) (hx : x ∈ m.flatten) :
    x ≤ qmax m := by
  have h : m.flatten ≠ [] := List.ne_nil_of_mem hx
  obtain ⟨a, as, ha⟩ := List.exists_cons_of_ne_nil h
  rw [qmax, ha]
  exact le_foldl_max as a x (ha ▸ hx)

theorem flatten_qrelu (m : List (List ℚ)) :
    (qrelu m).flatten = m.flatten.map (fun x => max x 0) := by
  simp [qrelu]

theorem qrelu_nonneg (m : List (List ℚ)) (x : ℚ) (hx : x ∈ (qrelu m).flatten) :
    0 ≤ x := by
  rw [flatten_qrelu] at hx
  obtain ⟨y, _, hy⟩ := List.mem_map.mp hx
  rw [← hy]
  exact le_max_right y 0

theorem qrelu_eq_self (m : List (List ℚ)) (h : ∀ x ∈ m.flatten, 0 ≤ x) :
    qrelu m = m := by
  rw [qrelu]
  conv_rhs => rw [← List.map_id m]
  refine List.map_congr_left (fun r hr => ?_)
  rw [id]
  conv_rhs => rw [← List.map_id r]
  refine List.map_congr_left (fun x hx => ?_)
  exact max_eq_left (h x (List.mem_flatten_of_mem hr hx))

theorem qmax_qrelu_pos (m : List (List ℚ)) (hpos : ∃ x ∈ m.flatten, 0 < x) :
    0 < qmax (qrelu m) := by
  obtain ⟨x, hx, hxpos⟩ := hpos
  have hmem : max x 0 ∈ (qrelu m).flatten := by
    rw [flatten_qrelu]
    exact List.mem_map_of_mem _ hx
  have := le_qmax _ _ hmem
  have hx0 : (0 : ℚ) < max x 0 := lt_max_of_lt_left hxpos
  linarith

/-- The normalized form of the rectified map: every entry divided by the
maximum of the rectified map. -/
theorem heatNorm_liftM (m : List (List ℚ)) (hpos : ∃ x ∈ m.flatten, 0 < x) :
    heatNorm (liftM m) =
      liftM ((qrelu m).map (List.map (fun x => x / qmax (qrelu m)))) := by
  have hne : m.flatten ≠ [] := by
    obtain ⟨x0, hx0, _⟩ := hpos
    exact List.ne_nil_of_mem hx0
  have hne2 : (qrelu m).flatten ≠ [] := by
    rw [flatten_qrelu]
    simpa using hne
  have hM : qmax (qrelu m) ≠ 0 := ne_of_gt (qmax_qrelu_pos m hpos)
  rw [heatNorm, relu_liftM, normalizeHeat, npMax_liftM _ hne2]
  simp [liftM, List.map_map, fdiv, hM, Function.comp_def]

theorem qrelu_flatten_ne_nil (m : List (List ℚ)) (hpos : ∃ x ∈ m.flatten, 0 < x) :
    (qrelu m).flatten ≠ [] := by
  obtain ⟨x0, hx0, _⟩ := hpos
  rw [flatten_qrelu]
  simpa using List.ne_nil_of_mem hx0

theorem heatNorm_n_bounds (m : List (List ℚ)) (hpos : ∃ x ∈ m.flatten, 0 < x) :
    (∀ x ∈ ((qrelu m).map (List.map (fun x => x / qmax (qrelu m)))).flatten,
      0 ≤ x ∧ x ≤ 1) ∧
    (1 : ℚ) ∈ ((qrelu m).map (List.map (fun x => x / qmax (qrelu m)))).flatten := by
  have hM : 0 < qmax (qrelu m) := qmax_qrelu_pos m hpos
  constructor
  · intro x hx
    rw [← List.map_flatten] at hx
    obtain ⟨e, he, rfl⟩ := List.mem_map.mp hx
    have h0 : 0 ≤ e := qrelu_nonneg m e he
    have h1 : e ≤ qmax (qrelu m) := le_qmax _ _ he
    exact ⟨div_nonneg h0 (le_of_lt hM), (div_le_one hM).mpr h1⟩
  · rw [← List.map_flatten, ← div_self (ne_of_gt hM)]
    exact List.mem_map_of_mem _ (qmax_mem _ (qrelu_flatten_ne_nil m hpos))

/-! ## The claims -/

/-- C1 (code_bug): on a degenerate activation map — here the all-zero
1×1×1 activation produced by `zeroActModel` — the normalization
`heat_map /= np.max(heat_map)` divides 0 by 0, so the pipeline completes
with no error and a heatmap whose entry is NaN (`none`): an undefined
result, not the defined all-zero heatmap (`some 0`) or explicit error the
spec requires. -/
theorem degenerate_heatmap_yields_nan :
    run_pipeline (some zeroActModel) unitImg = .ok ((1, 0, 0), [[none]]) ∧
    (none : Flt) ≠ some (0 : ℚ) := by
  constructor
  · simp [run_pipeline, zeroActModel, heatNorm, normalizeHeat, relu, chanMean,
      fmean, fsum, fadd, fdiv, fmax, npMax]
  · simp

/-- C2: for every channel-averaged activation map with at least one
strictly positive entry, the heatmap obtained by clamping negatives to
zero and dividing by the maximum (`heatNorm`) consists entirely of defined
values in [0, 1], and 1 itself is attained — i.e. the maximum element is
exactly 1.  (Exact arithmetic; the floating point version agrees to within
rounding tolerance.) -/
theorem heatmap_normalization_bounds (m : List (List ℚ))
    (hpos : ∃ x ∈ m.flatten, 0 < x) :
    ∃ n : List (List ℚ), heatNorm (liftM m) = liftM n ∧
      (∀ x ∈ n.flatten, 0 ≤ x ∧ x ≤ 1) ∧ (1 : ℚ) ∈ n.flatten :=
  ⟨_, heatNorm_liftM m hpos, (heatNorm_n_bounds m hpos).1,
    (heatNorm_n_bounds m hpos).2⟩

/-- Witness for C2 at the concrete channel-averaged map [[2]]. -/
theorem heatmap_normalization_bounds_witness :
    (∃ x ∈ [[(2 : ℚ)]].flatten, 0 < x) ∧
    (∃ n : List (List ℚ), heatNorm (liftM [[(2 : ℚ)]]) = liftM n ∧
      (∀ x ∈ n.flatten, 0 ≤ x ∧ x ≤ 1) ∧ (1 : ℚ) ∈ n.flatten) :=
  ⟨⟨2, by simp, by norm_num⟩,
    heatmap_normalization_bounds [[(2 : ℚ)]] ⟨2, by simp, by norm_num⟩⟩

/-- C10: rectify-then-normalize is idempotent on non-degenerate maps:
applying the pair of steps of lines 66–67 twice equals applying it once
(and hence every already-normalized map — entries in [0,1] with maximum
exactly 1 — is a fixed point, being itself the output of the first
application). -/
theorem heatNorm_idempotent (m : List (List ℚ))
    (hpos : ∃ x ∈ m.flatten, 0 < x) :
    heatNorm (heatNorm (liftM m)) = heatNorm (liftM m) := by
  have hEq := heatNorm_liftM m hpos
  have hb := heatNorm_n_bounds m hpos
  rw [hEq]
  generalize hn : (qrelu m).map (List.map (fun x => x / qmax (qrelu m))) = n
    at hEq hb
  have hnn : ∀ x ∈ n.flatten, 0 ≤ x := fun x hx => (hb.1 x hx).1
  have h1mem : (1 : ℚ) ∈ n.flatten := hb.2
  have hq : qrelu n = n := qrelu_eq_self n hnn
  have hmax : qmax n = 1 := by
    apply le_antisymm
    · exact (hb.1 _ (qmax_mem n (List.ne_nil_of_mem h1mem))).2
    · exact le_qmax n 1 h1mem
  rw [heatNorm, relu_liftM, hq, normalizeHeat,
    npMax_liftM n (List.ne_nil_of_mem h1mem), hmax]
  simp [liftM, List.map_map, fdiv, Function.comp_def]

/-- Witness for C10 at the concrete channel-averaged map [[2]]. -/
theorem heatNorm_idempotent_witness :
    (∃ x ∈ [[(2 : ℚ)]].flatten, 0 < x) ∧
    heatNorm (heatNorm (liftM [[(2 : ℚ)]])) = heatNorm (liftM [[(2 : ℚ)]]) :=
  ⟨⟨2, by simp, by norm_num⟩,
    heatNorm_idempotent [[(2 : ℚ)]] ⟨2, by simp, by norm_num⟩⟩

/-- C3 (counterexample): a contour at the four pixel corners of the
224×224 frame, remapped with scale_x = 800/224 and scale_y = 600/224, has
its (223, 0) corner sent to (796, 0), which is 3 pixels — not within
1 pixel — from the corresponding pixel corner (799, 0) of the 800×600
frame (and likewise (223, 223) lands at (796, 597), 3 and 2 pixels off
(799, 599)). -/
theorem scale_corners_not_within_one :
    scale_contours [cornerContour] (scale_x 800) (scale_y 600)
      = [[(0, 0), (796, 0), (796, 597), (0, 597)]] ∧
    ¬ withinPix 1 (796, 0) (799, 0) := by
  constructor
  · simp [scale_contours, scalePoint, cornerContour, scale_x, scale_y]
    norm_num [Int.floor_eq_iff]
  · decide

/-- C3 (amended): every remapped corner of the 224×224 frame lands within
3 pixels (per axis) of the corresponding pixel corner of the 800×600
frame. -/
theorem scale_corners_within_three :
    scale_contours [cornerContour] (scale_x 800) (scale_y 600)
      = [[(0, 0), (796, 0), (796, 597), (0, 597)]] ∧
    withinPix 3 (0, 0) (0, 0) ∧ withinPix 3 (796, 0) (799, 0) ∧
    withinPix 3 (796, 597) (799, 599) ∧ withinPix 3 (0, 597) (0, 599) := by
  refine ⟨?_, by decide, by decide, by decide, by decide⟩
  simp [scale_contours, scalePoint, cornerContour, scale_x, scale_y]
  norm_num [Int.floor_eq_iff]

/-- C4 (code_bug): the script computes
`contour_thickness = max(2, int(max_dimension / 200))` but then passes the
literal `5` to `cv2.drawContours`; for a 2000×1000 original image the
computed thickness is 10, yet the stroke drawn uses 5. -/
theorem contour_thickness_not_used :
    contour_thickness 2000 1000 = 10 ∧ drawContours_thickness = 5 ∧
    drawContours_thickness ≠ contour_thickness 2000 1000 := by
  decide

theorem pyRound_intCast (n : ℤ) : pyRound (n : ℚ) = n := by
  simp [pyRound]

theorem contain_wideRed : contain wideRed 224 224 = resizeNN wideRed 224 112 := by
  rw [contain]
  have h1 : ((wideRed.height : ℚ) * ((224 : ℕ) : ℚ) / (wideRed.width : ℚ))
      = ((112 : ℤ) : ℚ) := by
    simp [wideRed]
    norm_num
  rw [h1, pyRound_intCast]
  norm_num [wideRed]
  rfl

theorem pad_wideRed_px : (pad wideRed 224 224).px 0 0 = (0, 0, 0) := by
  rw [pad, contain_wideRed]
  simp only [resizeNN]
  norm_num
  intro h1 h2
  rw [show (56 : ℚ) = ((56 : ℤ) : ℚ) by norm_num, pyRound_intCast] at h2
  norm_num at h2

/-- C5: the tensor handed to the forward pass is taken from the
letterboxed (`ImageOps.pad`) 224×224 form — the line-145 rebinding of
`image_resized` supersedes the line-142 `ImageOps.fit` centre-crop form —
and the two forms genuinely differ: on a 448×224 all-red image the
letterboxed tensor has a black padding pixel at (0, 0) while the
centre-crop tensor is red there. -/
theorem model_input_is_letterboxed :
    (∀ image_data : PImage,
      preprocess_x image_data = toTensor (pad image_data 224 224)) ∧
    preprocess_x wideRed ≠ toTensor (fit wideRed 224 224) := by
  constructor
  · intro image_data
    rfl
  · intro hEq
    have h0 : preprocess_x wideRed 0 0 = (0, 0, 0) := by
      show toTensor (pad wideRed 224 224) 0 0 = (0, 0, 0)
      rw [toTensor]
      simp [pad_wideRed_px]
    have h1 : toTensor (fit wideRed 224 224) 0 0 = (1, 0, 0) := by
      simp [fit, toTensor, wideRed]
    rw [hEq, h1] at h0
    simp at h0

/-- C6: orientation correction is the identity for tag 1, a missing tag,
or an unsupported tag; tag 3 rotates 180° (dimensions preserved), tag 6
rotates 270° and tag 8 rotates 90° (dimensions swapped). -/
theorem correct_orientation_spec (img : PImage) :
    ((img.exifTag = none ∨ img.exifTag = some 1 ∨
        (∃ t, img.exifTag = some t ∧ t ≠ 3 ∧ t ≠ 6 ∧ t ≠ 8)) →
      correct_orientation img = img) ∧
    (img.exifTag = some 3 → correct_orientation img = rot180 img ∧
      (correct_orientation img).width = img.width ∧
      (correct_orientation img).height = img.height) ∧
    (img.exifTag = some 6 → correct_orientation img = rot270 img ∧
      (correct_orientation img).width = img.height ∧
      (correct_orientation img).height = img.width) ∧
    (img.exifTag = some 8 → correct_orientation img = rot90 img ∧
      (correct_orientation img).width = img.height ∧
      (correct_orientation img).height = img.width) := by
  refine ⟨?_, ?_, ?_, ?_⟩
  · intro h
    rcases h with h | h | ⟨t, ht, h3, h6, h8⟩
    · simp [correct_orientation, h]
    · simp [correct_orientation, h]
    · simp [correct_orientation, ht, h3, h6, h8]
  · intro h
    refine ⟨by simp [correct_orientation, h], ?_, ?_⟩ <;>
      simp [correct_orientation, h, rot180]
  · intro h
    refine ⟨by simp [correct_orientation, h], ?_, ?_⟩ <;>
      simp [correct_orientation, h, rot270]
  · intro h
    refine ⟨by simp [correct_orientation, h], ?_, ?_⟩ <;>
      simp [correct_orientation, h, rot90]

/-- Witness for C6 at concrete images: no tag (identity), tag 3
(dimensions preserved), tags 6 and 8 (2×1 dimensions swapped). -/
theorem correct_orientation_spec_witness :
    correct_orientation unitImg = unitImg ∧
    ((correct_orientation img3).width = img3.width ∧
      (correct_orientation img3).height = img3.height) ∧
    ((correct_orientation img6).width = img6.height ∧
      (correct_orientation img6).height = img6.width) ∧
    ((correct_orientation img8).width = img8.height ∧
      (correct_orientation img8).height = img8.width) :=
  ⟨(correct_orientation_spec unitImg).1 (Or.inl rfl),
    ⟨((correct_orientation_spec img3).2.1 rfl).2.1,
      ((correct_orientation_spec img3).2.1 rfl).2.2⟩,
    ⟨((correct_orientation_spec img6).2.2.1 rfl).2.1,
      ((correct_orientation_spec img6).2.2.1 rfl).2.2⟩,
    ⟨((correct_orientation_spec img8).2.2.2 rfl).2.1,
      ((correct_orientation_spec img8).2.2.2 rfl).2.2⟩⟩

/-- C7: the `except Exception` boundary of `import_and_predict` catches
exactly the pipeline failures: the function returns `none` if and only if
some stage of the pipeline raised; no error value propagates past it, and
a failing request yields a plain `none` result rather than crashing. -/
theorem import_and_predict_none_iff_error (model : Option KModel)
    (img : PImage) :
    import_and_predict model img = none ↔
      ∃ e, run_pipeline model img = .error e := by
  cases h : run_pipeline model img with
  | ok r => simp [import_and_predict, h]
  | error e => simp [import_and_predict, h]

theorem floor_scale_bound (v W : ℕ) (hv : v ≤ 223) (hW : 1 ≤ W) :
    0 ≤ ⌊(v : ℚ) * ((W : ℚ) / 224)⌋ ∧ ⌊(v : ℚ) * ((W : ℚ) / 224)⌋ < (W : ℤ) := by
  have hv' : (v : ℚ) ≤ 223 := by exact_mod_cast hv
  have hW' : (1 : ℚ) ≤ (W : ℚ) := by exact_mod_cast hW
  constructor
  · apply Int.floor_nonneg.mpr
    positivity
  · rw [Int.floor_lt]
    push_cast
    rw [mul_div_assoc', div_lt_iff₀ (by norm_num : (0 : ℚ) < 224)]
    nlinarith

/-- C8: every coordinate produced by the `scale_contours` remap lies in
original-image pixel space: for contour points with coordinates in
[0, 223] and an original image of size `ow × oh` (each at least 1), the
remapped x is in [0, ow) and the remapped y is in [0, oh); the drawn
contours are exactly this remapped set, never raw 224×224 coordinates. -/
theorem scale_contours_in_bounds (ow oh : ℕ) (hw : 1 ≤ ow) (hh : 1 ≤ oh)
    (contours : List (List (ℕ × ℕ)))
    (hpts : ∀ c ∈ contours, ∀ p ∈ c, p.1 ≤ 223 ∧ p.2 ≤ 223) :
    ∀ c ∈ scale_contours contours (scale_x ow) (scale_y oh), ∀ q ∈ c,
      0 ≤ q.1 ∧ q.1 < (ow : ℤ) ∧ 0 ≤ q.2 ∧ q.2 < (oh : ℤ) := by
  intro c hc q hq
  rw [scale_contours] at hc
  obtain ⟨c0, hc0, rfl⟩ := List.mem_map.mp hc
  obtain ⟨p, hp, rfl⟩ := List.mem_map.mp hq
  obtain ⟨hx, hy⟩ := hpts c0 hc0 p hp
  have h1 := floor_scale_bound p.1 ow hx hw
  have h2 := floor_scale_bound p.2 oh hy hh
  exact ⟨h1.1, h1.2, h2.1, h2.2⟩

/-- Witness for C8: the single contour point (10, 20), remapped for an
800×600 original image, lands inside the 800×600 pixel grid. -/
theorem scale_contours_in_bounds_witness :
    (1 ≤ 800) ∧ (1 ≤ 600) ∧
    (∀ c ∈ [[((10 : ℕ), (20 : ℕ))]], ∀ p ∈ c, p.1 ≤ 223 ∧ p.2 ≤ 223) ∧
    (∀ c ∈ scale_contours [[((10 : ℕ), (20 : ℕ))]] (scale_x 800) (scale_y 600),
      ∀ q ∈ c, 0 ≤ q.1 ∧ q.1 < (800 : ℤ) ∧ 0 ≤ q.2 ∧ q.2 < (600 : ℤ)) :=
  ⟨by norm_num, by norm_num, by decide,
    scale_contours_in_bounds 800 600 (by norm_num) (by norm_num)
      [[(10, 20)]] (by decide)⟩

/-- C9 (spec-modelled classifier): with the classifier head modelled as
normalization of nonnegative class scores with positive total, every
successful `import_and_predict` call returns an ordered triple of
probabilities each in [0, 1], summing to 1 within 1e-3, and the triple
returned is exactly the one the model produced — it is not mutated
between the forward pass and the return. -/
theorem prediction_vector_invariant (score : Tensor → ℚ × ℚ × ℚ)
    (act : Tensor → List (List (List Flt))) (img : PImage) (r : PipeResult)
    (hnn : ∀ t, 0 ≤ (score t).1 ∧ 0 ≤ (score t).2.1 ∧ 0 ≤ (score t).2.2)
    (hpos : ∀ t, 0 < (score t).1 + (score t).2.1 + (score t).2.2)
    (hr : import_and_predict (some (specModel score act)) img = some r) :
    ((0 ≤ r.1.1 ∧ r.1.1 ≤ 1) ∧ (0 ≤ r.1.2.1 ∧ r.1.2.1 ≤ 1) ∧
      (0 ≤ r.1.2.2 ∧ r.1.2.2 ≤ 1)) ∧
    |r.1.1 + r.1.2.1 + r.1.2.2 - 1| ≤ 1 / 1000 ∧
    r.1 = softmax3 (score (preprocess_x img)) := by
  have hr1 : r.1 = softmax3 (score (preprocess_x img)) := by
    by_cases hact : (relu (chanMean (act (preprocess_x img)))).flatten = []
    · have herr : run_pipeline (some (specModel score act)) img
          = .error .emptyActivation := by
        simp [run_pipeline, specModel, hact]
      simp [import_and_predict, herr] at hr
    · have hok : run_pipeline (some (specModel score act)) img
          = .ok (softmax3 (score (preprocess_x img)),
              heatNorm (chanMean (act (preprocess_x img)))) := by
        simp [run_pipeline, specModel, hact]
      simp only [import_and_predict, hok, Option.some.injEq] at hr
      rw [← hr]
  obtain ⟨ha, hb, hc⟩ := hnn (preprocess_x img)
  have hp := hpos (preprocess_x img)
  rw [hr1]
  simp only [softmax3]
  refine ⟨⟨⟨?_, ?_⟩, ⟨?_, ?_⟩, ⟨?_, ?_⟩⟩, ?_, by trivial⟩
  · exact div_nonneg ha (le_of_lt hp)
  · exact (div_le_one hp).mpr (by linarith)
  · exact div_nonneg hb (le_of_lt hp)
  · exact (div_le_one hp).mpr (by linarith)
  · exact div_nonneg hc (le_of_lt hp)
  · exact (div_le_one hp).mpr (by linarith)
  · rw [div_add_div_same, div_add_div_same, div_self (ne_of_gt hp)]
    norm_num

/-- Witness for C9: constant scores (1, 2, 3) give the returned triple
(1/6, 1/3, 1/2), in bounds, summing to 1, equal to the model's output. -/
theorem prediction_vector_invariant_witness :
    ((0 ≤ (1/6 : ℚ) ∧ (1/6 : ℚ) ≤ 1) ∧ (0 ≤ (1/3 : ℚ) ∧ (1/3 : ℚ) ≤ 1) ∧
      (0 ≤ (1/2 : ℚ) ∧ (1/2 : ℚ) ≤ 1)) ∧
    |(1/6 : ℚ) + 1/3 + 1/2 - 1| ≤ 1 / 1000 ∧
    ((1/6 : ℚ), (1/3 : ℚ), (1/2 : ℚ)) = softmax3 (constScore (preprocess_x unitImg)) :=
  prediction_vector_invariant constScore constAct unitImg
    ((1/6, 1/3, 1/2), [[none]])
    (fun t => by norm_num [constScore])
    (fun t => by norm_num [constScore])
    (by simp [import_and_predict, run_pipeline, specModel, constScore,
          constAct, softmax3, heatNorm, normalizeHeat, relu, chanMean,
          fmean, fsum, fadd, fdiv, fmax, npMax]
        norm_num)

end BrickSense
